import Mathlib

/-!
Verification of `openquake/baselib/workerpool.py`: a shallow embedding of the
task-submission generator `_starmap`, the `WorkerPool` control loop and worker
loop, and the `WorkerMaster` control-plane client, together with theorems about
the behaviour of those functions.

Conventions of the embedding:
* Python generators and loops become structurally recursive Lean functions
  producing explicit event traces (a `List` of events, in the temporal order
  the side effects happen in the source).
* In-place mutation of a record field (e.g. `args[-1].backurl = url`) becomes
  a functional update of a copy.
* External collaborators that are not among the source files (the zmq socket
  layer `openquake.baselib.zeromq`, `openquake.baselib.parallel`, the OS)
  enter as parameters: e.g. `true_end_point` maps a bind-url hint to the
  endpoint discovered at bind time, `connect_ex` gives the error code of a
  raw socket connection attempt, `spawn_pid i` is the pid the OS hands the
  i-th spawned process.
* A Python exception escaping a function is `Except.error`.
-/

/-- A `Monitor` record (external collaborator): the only field the worker-pool
code touches is `backurl`, mutated in place by `_starmap`; mutation is modelled
by functional update. -/
structure Monitor where
  backurl : Option String
  deriving Repr, DecidableEq

/-- An argument tuple `args` whose last element (`args[-1]`) is a Monitor;
the other elements are opaque payload. -/
structure ArgTuple where
  payload : List Nat
  mon : Monitor
  deriving Repr, DecidableEq

/-- What a Worker pushes back to `monitor.backurl`: the value of the callable
or a captured failure (the two shapes `safely_call` can return). -/
inductive TaskResult where
  | success (v : Nat)
  | failure (e : String)
  deriving Repr, DecidableEq

/-- The observable events of one run of the `_starmap` generator, in temporal
order: binding the receiver socket, connecting the sender socket, each
`sender.send((func, args))`, the `yield n`, and each yielded
`receiver.zsocket.recv_pyobj()`. -/
inductive SEvent where
  | bindRecv (url : String)
  | connectSend (url : String)
  | send (func : String) (args : ArgTuple)
  | yieldCount (n : Nat)
  | recvYield (r : TaskResult)
  deriving Repr, DecidableEq

/-- `args[-1].backurl = url`, modelled as a functional update. -/
def setBackurl (url : String) (a : ArgTuple) : ArgTuple :=
  { a with mon := { a.mon with backurl := some url } }

/-- The `for args in iterargs` loop of `_starmap`: sets the backurl on each
tuple, sends `(func, args)` and increments the counter `n`; returns the send
events together with the final counter value. -/
def sendPhase (func url : String) : List ArgTuple → Nat → List SEvent × Nat
  | [], n => ([], n)
  | a :: rest, n =>
    let out := sendPhase func url rest (n + 1)
    (SEvent.send func (setBackurl url a) :: out.1, out.2)

/-- The full event trace of one run of `_starmap(func, iterargs, task_in_url,
receiver_url)`. `true_end_point` models the discovery of the actually-bound
address of the receiver socket (`receiver.true_end_point`, an ephemeral port
when the hint is a range); `recv` models the stream of objects received on the
receiver socket (`recv i` is the i-th `recv_pyobj()`). After the send loop the
generator yields the counter and then yields exactly that many received
objects. -/
def starmapTrace (func : String) (iterargs : List ArgTuple)
    (task_in_url receiver_url : String) (true_end_point : String → String)
    (recv : Nat → TaskResult) : List SEvent :=
  let url := true_end_point receiver_url
  let sp := sendPhase func url iterargs 0
  SEvent.bindRecv url :: SEvent.connectSend task_in_url ::
    (sp.1 ++ SEvent.yieldCount sp.2 ::
      (List.range sp.2).map (fun i => SEvent.recvYield (recv i)))

lemma sendPhase_eq (func url : String) (l : List ArgTuple) (n : Nat) :
    sendPhase func url l n
      = (l.map (fun a => SEvent.send func (setBackurl url a)), n + l.length) := by
  induction l generalizing n with
  | nil => simp [sendPhase]
  | cons a rest ih =>
    simp only [sendPhase, ih, List.map_cons, List.length_cons, Prod.mk.injEq,
      true_and]
    omega

/-- Claim C1: a run of `_starmap` first emits one send per input argument
tuple, then — as soon as the input is exhausted and before receiving
anything — yields the count `n` equal to the number of tuples sent, and then
yields exactly `n` received results: the number of sends equals the announced
count and equals the number of results yielded. -/
theorem starmap_count_protocol (func : String) (iterargs : List ArgTuple)
    (tiu ru : String) (tep : String → String) (recv : Nat → TaskResult) :
    ∃ pre post,
      starmapTrace func iterargs tiu ru tep recv
        = SEvent.bindRecv (tep ru) :: SEvent.connectSend tiu ::
            (pre ++ SEvent.yieldCount iterargs.length :: post) ∧
      pre.length = iterargs.length ∧ post.length = iterargs.length ∧
      (∀ e ∈ pre, ∃ a, e = SEvent.send func a) ∧
      (∀ e ∈ post, ∃ r, e = SEvent.recvYield r) := by
  refine ⟨iterargs.map (fun a => SEvent.send func (setBackurl (tep ru) a)),
          (List.range iterargs.length).map (fun i => SEvent.recvYield (recv i)),
          ?_, by simp, by simp, ?_, ?_⟩
  · simp [starmapTrace, sendPhase_eq]
  · intro e he
    rcases List.mem_map.mp he with ⟨a, _, rfl⟩
    exact ⟨_, rfl⟩
  · intro e he
    rcases List.mem_map.mp he with ⟨i, _, rfl⟩
    exact ⟨_, rfl⟩

/-- Claim C7: in every run of `_starmap` the reply endpoint is bound first
(before anything is sent), and every sent task's monitor carries
`backurl = the discovered bound endpoint`; in particular every task of the run
carries the same backurl. -/
theorem starmap_backurl_invariant (func : String) (iterargs : List ArgTuple)
    (tiu ru : String) (tep : String → String) (recv : Nat → TaskResult) :
    (starmapTrace func iterargs tiu ru tep recv).head?
      = some (SEvent.bindRecv (tep ru)) ∧
    ∀ f a, SEvent.send f a ∈ starmapTrace func iterargs tiu ru tep recv →
      f = func ∧ a.mon.backurl = some (tep ru) := by
  constructor
  · simp [starmapTrace]
  · intro f a hmem
    simp only [starmapTrace, sendPhase_eq, List.mem_cons, List.mem_append,
      List.mem_map] at hmem
    rcases hmem with h | h | ⟨x, _, h⟩ | h | ⟨i, _, h⟩
    · exact absurd h (by simp)
    · exact absurd h (by simp)
    · injection h with hf ha
      subst hf
      subst ha
      exact ⟨rfl, by simp [setBackurl]⟩
    · exact absurd h (by simp)
    · exact absurd h (by simp)

/-- The two signals the pool sends its workers: `signal.SIGINT` (from `stop`)
and `signal.SIGTERM` (from `kill`). -/
inductive Sig where
  | sigint
  | sigterm
  deriving Repr, DecidableEq

/-- A reply sent on the REP control socket: a status string (for stop/kill) or
the pool's pid (for getpid). -/
inductive Reply where
  | str (s : String)
  | pid (n : Nat)
  deriving Repr, DecidableEq

/-- The observable events of the WorkerPool control loop, in temporal order:
`os.kill(pid, sig)` on a worker, `ctrlsock.send(...)`, and the `break` that
exits the loop. -/
inductive PEvent where
  | kill (pid : Nat) (s : Sig)
  | reply (r : Reply)
  | exitLoop
  deriving Repr, DecidableEq

/-- The numeric value of a decimal digit, `none` for any other character. -/
def digitVal? (c : Char) : Option Nat :=
  if '0' ≤ c ∧ c ≤ '9' then some (c.toNat - '0'.toNat) else none

/-- Decimal value of a digit run, `none` when a non-digit appears. -/
def digitsAux : List Char → Nat → Option Nat
  | [], acc => some acc
  | c :: cs, acc =>
    match digitVal? c with
    | some d => digitsAux cs (acc * 10 + d)
    | none => none

/-- Python `int(s)` on the strings this subsystem passes around: an optional
leading minus followed by at least one decimal digit; any other string raises
`ValueError` (`none`). (Python's further allowances — surrounding whitespace,
a leading `+`, digit-group underscores — are not exercised by this code and
are not modelled.) -/
def pyInt? (s : String) : Option Int :=
  match s.data with
  | [] => none
  | '-' :: [] => none
  | '-' :: c :: cs => (digitsAux (c :: cs) 0).map (fun n => -(n : Int))
  | cs => (digitsAux cs 0).map (fun n => (n : Int))

/-- `WorkerPool.__init__(ctrl_url, task_out_url, num_workers)`: `num_workers`
is `multiprocessing.cpu_count()` when the string is `"-1"`, otherwise Python
`int(num_workers)` (modelled by `pyInt?`; a non-numeric string raises,
hence `Option`); `pid` records `os.getpid()` at construction. -/
structure WorkerPool where
  ctrl_url : String
  task_out_url : String
  num_workers : Int
  pid : Nat
  deriving Repr, DecidableEq

def WorkerPool.init (ctrl_url task_out_url num_workers : String)
    (cpu_count os_pid : Nat) : Option WorkerPool :=
  let nw : Option Int :=
    if num_workers = "-1" then some (Int.ofNat cpu_count)
    else pyInt? num_workers
  nw.map (fun n =>
    { ctrl_url := ctrl_url, task_out_url := task_out_url,
      num_workers := n, pid := os_pid })

/-- The spawn loop of `WorkerPool.start`: one Worker process per iteration of
`range(self.num_workers)` (Python `range` of a non-positive number is empty,
hence `Int.toNat`), each spawned process's pid recorded on its socket
(`sock.pid = proc.pid; self.workers.append(sock)`). `spawn_pid i` is the pid
the OS gives the i-th spawned process. -/
def WorkerPool.startWorkers (wp : WorkerPool) (spawn_pid : Nat → Nat) :
    List Nat :=
  (List.range wp.num_workers.toNat).map spawn_pid

/-- The state the control loop of `WorkerPool.start` runs over: the recorded
worker pids (`self.workers`, with their `.pid`), `self.pid` and
`self.ctrl_url`. Nothing in the class mutates these after the spawn loop, so
the loop threads one immutable state. -/
structure PoolState where
  workers : List Nat
  pid : Nat
  ctrl_url : String
  deriving Repr, DecidableEq

/-- The state `WorkerPool.start` has built when it enters the control loop. -/
def WorkerPool.started (wp : WorkerPool) (spawn_pid : Nat → Nat) : PoolState :=
  { workers := wp.startWorkers spawn_pid, pid := wp.pid,
    ctrl_url := wp.ctrl_url }

/-- `WorkerPool.stop`: `os.kill(sock.pid, signal.SIGINT)` for every recorded
worker, then return the confirmation string. -/
def PoolState.stop (st : PoolState) : List PEvent × String :=
  (st.workers.map (fun q => PEvent.kill q Sig.sigint),
   "WorkerPool " ++ st.ctrl_url ++ " stopped")

/-- `WorkerPool.kill`: `os.kill(sock.pid, signal.SIGTERM)` for every recorded
worker, then return the confirmation string. -/
def PoolState.kill (st : PoolState) : List PEvent × String :=
  (st.workers.map (fun q => PEvent.kill q Sig.sigterm),
   "WorkerPool " ++ st.ctrl_url ++ " killed")

/-- One iteration of the control-loop body on a received command: the events it
emits and whether it `break`s. `cmd in ('stop', 'kill')` dispatches through
`getattr(self, cmd)()`, sends the returned message and breaks; `getpid` sends
`self.pid` and continues; any other command falls through both branches:
no reply, no break. -/
def ctrlStep (st : PoolState) (cmd : String) : List PEvent × Bool :=
  if cmd = "stop" ∨ cmd = "kill" then
    let out := if cmd = "stop" then st.stop else st.kill
    (out.1 ++ [PEvent.reply (Reply.str out.2)], true)
  else if cmd = "getpid" then
    ([PEvent.reply (Reply.pid st.pid)], false)
  else
    ([], false)

/-- The control loop `for cmd in ctrlsock: ...` over the stream of commands
received on the REP socket, as an event trace; `PEvent.exitLoop` marks the
`break`, after which no further command is processed. -/
def ctrlLoop (st : PoolState) : List String → List PEvent
  | [] => []
  | c :: cs =>
    let out := ctrlStep st c
    if out.2 then out.1 ++ [PEvent.exitLoop]
    else out.1 ++ ctrlLoop st cs

/-- Claim C2: on `"stop"` (resp. `"kill"`) the control loop signals every
recorded worker pid with SIGINT (resp. SIGTERM), then replies with the
confirmation message, then exits; the trace is independent of any further
queued commands, so no command after `stop`/`kill` is ever served. -/
theorem pool_stop_kill_terminal (st : PoolState) (cs : List String) :
    ctrlLoop st ("stop" :: cs)
      = st.workers.map (fun q => PEvent.kill q Sig.sigint)
        ++ [PEvent.reply (Reply.str ("WorkerPool " ++ st.ctrl_url ++ " stopped")),
            PEvent.exitLoop] ∧
    ctrlLoop st ("kill" :: cs)
      = st.workers.map (fun q => PEvent.kill q Sig.sigterm)
        ++ [PEvent.reply (Reply.str ("WorkerPool " ++ st.ctrl_url ++ " killed")),
            PEvent.exitLoop] := by
  constructor <;>
    simp [ctrlLoop, ctrlStep, PoolState.stop, PoolState.kill]

/-- Claim C5: `k` consecutive `"getpid"` commands (no stop/kill) each get a
reply carrying the pid recorded at pool construction, and the control loop
never exits. -/
theorem pool_getpid_stable (wp : WorkerPool) (spawn_pid : Nat → Nat) (k : Nat) :
    ctrlLoop (wp.started spawn_pid) (List.replicate k "getpid")
      = List.replicate k (PEvent.reply (Reply.pid wp.pid)) ∧
    PEvent.exitLoop ∉
      ctrlLoop (wp.started spawn_pid) (List.replicate k "getpid") := by
  have h : ∀ (st : PoolState) (m : Nat),
      ctrlLoop st (List.replicate m "getpid")
        = List.replicate m (PEvent.reply (Reply.pid st.pid)) := by
    intro st m
    induction m with
    | zero => simp [ctrlLoop]
    | succ m ih =>
      simp [List.replicate_succ, ctrlLoop, ctrlStep, ih]
  have hpid : (wp.started spawn_pid).pid = wp.pid := rfl
  refine ⟨by rw [h, hpid], ?_⟩
  rw [h, hpid]
  intro hmem
  have h' := List.eq_of_mem_replicate hmem
  simp at h'

/-- Claim C10: a command other than `"stop"`, `"kill"` or `"getpid"` falls
through every branch of the control-loop body: no reply is sent, the loop does
not exit, and processing continues with the next command exactly as if the
unrecognized one had never arrived. -/
theorem pool_unknown_cmd_ignored (st : PoolState) (c : String)
    (cs : List String) (h1 : c ≠ "stop") (h2 : c ≠ "kill")
    (h3 : c ≠ "getpid") :
    ctrlStep st c = ([], false) ∧ ctrlLoop st (c :: cs) = ctrlLoop st cs := by
  have hstep : ctrlStep st c = ([], false) := by
    simp [ctrlStep, h1, h2, h3]
  exact ⟨hstep, by simp [ctrlLoop, hstep]⟩

theorem pool_unknown_cmd_ignored_witness :
    ctrlStep ⟨[11, 12], 7, "tcp://h:1907"⟩ "hello" = ([], false) ∧
    ctrlLoop ⟨[11, 12], 7, "tcp://h:1907"⟩ ["hello", "getpid"]
      = ctrlLoop ⟨[11, 12], 7, "tcp://h:1907"⟩ ["getpid"] :=
  pool_unknown_cmd_ignored ⟨[11, 12], 7, "tcp://h:1907"⟩ "hello" ["getpid"]
    (by decide) (by decide) (by decide)

/-- Claim C9: a WorkerPool constructed with worker-count string `"-1"` uses the
host's core count, otherwise the integer value of the string; the spawn loop of
`start` spawns exactly that many Worker processes, recording each spawned
process's pid in order (Python `range` of a negative count being empty). -/
theorem pool_worker_count (ctrl task_out s : String) (cpu os_pid : Nat)
    (spawn_pid : Nat → Nat) (k : Int) (hk : pyInt? s = some k)
    (hs : s ≠ "-1") :
    (∃ wp, WorkerPool.init ctrl task_out "-1" cpu os_pid = some wp ∧
       wp.num_workers = Int.ofNat cpu ∧
       wp.startWorkers spawn_pid = (List.range cpu).map spawn_pid ∧
       (wp.startWorkers spawn_pid).length = cpu) ∧
    (∃ wp, WorkerPool.init ctrl task_out s cpu os_pid = some wp ∧
       wp.num_workers = k ∧
       wp.startWorkers spawn_pid = (List.range k.toNat).map spawn_pid ∧
       (wp.startWorkers spawn_pid).length = k.toNat) := by
  constructor
  · refine ⟨⟨ctrl, task_out, Int.ofNat cpu, os_pid⟩, ?_, rfl, ?_, ?_⟩
    · simp [WorkerPool.init]
    · simp [WorkerPool.startWorkers]
    · simp [WorkerPool.startWorkers]
  · refine ⟨⟨ctrl, task_out, k, os_pid⟩, ?_, rfl, rfl, ?_⟩
    · simp [WorkerPool.init, hs, hk]
    · simp [WorkerPool.startWorkers]

theorem pool_worker_count_witness :
    (∃ wp, WorkerPool.init "tcp://h:1907" "tcp://h:1909" "-1" 4 99 = some wp ∧
       wp.num_workers = Int.ofNat 4 ∧
       wp.startWorkers (fun i => 100 + i) = (List.range 4).map (fun i => 100 + i) ∧
       (wp.startWorkers (fun i => 100 + i)).length = 4) ∧
    (∃ wp, WorkerPool.init "tcp://h:1907" "tcp://h:1909" "3" 4 99 = some wp ∧
       wp.num_workers = (3 : Int) ∧
       wp.startWorkers (fun i => 100 + i) = (List.range (3 : Int).toNat).map (fun i => 100 + i) ∧
       (wp.startWorkers (fun i => 100 + i)).length = (3 : Int).toNat) :=
  pool_worker_count "tcp://h:1907" "tcp://h:1909" "3" 4 99 (fun i => 100 + i)
    3 (by decide) (by decide)

/-- Modelled from the spec: `safely_call` lives in `openquake.baselib.parallel`,
which is not among the source files; per the spec it invokes the callable with
the arguments, "capturing any raised failure rather than letting it propagate",
and returns the resulting TaskResult (success or captured failure). The
behaviour of the callable registry is the parameter `apply`; `Except.error`
models a raise. -/
def safely_call (apply : String → ArgTuple → Except String Nat)
    (cmd : String) (args : ArgTuple) : TaskResult :=
  match apply cmd args with
  | Except.ok v => TaskResult.success v
  | Except.error e => TaskResult.failure e

/-- A worker-side observable event: pushing a TaskResult to the task's
`monitor.backurl` over a fresh PUSH socket. -/
inductive WEvent where
  | push (backurl : Option String) (r : TaskResult)
  deriving Repr, DecidableEq

/-- `WorkerPool.worker`: for each `(cmd, args)` pulled from the task socket,
read `args[-1].backurl` and push `safely_call(cmd, args)` there, then proceed
to the next task. `tasks` is the stream of pairs the socket yields. -/
def worker (apply : String → ArgTuple → Except String Nat) :
    List (String × ArgTuple) → List WEvent
  | [] => []
  | (cmd, args) :: rest =>
    WEvent.push args.mon.backurl (safely_call apply cmd args)
      :: worker apply rest

lemma worker_eq (apply : String → ArgTuple → Except String Nat)
    (tasks : List (String × ArgTuple)) :
    worker apply tasks
      = tasks.map (fun t => WEvent.push t.2.mon.backurl
          (safely_call apply t.1 t.2)) := by
  induction tasks with
  | nil => rfl
  | cons t rest ih => cases t; simp [worker, ih]

/-- Claim C4: when the callable of the i-th pulled task raises, the failure is
captured into a `TaskResult.failure` and pushed to that task's
`monitor.backurl` like a success, and the Worker does not terminate: it
processes every task of the stream (one push per pulled task, so it proceeds
to pull the next task after the failure). -/
theorem worker_captures_failures (apply : String → ArgTuple → Except String Nat)
    (tasks : List (String × ArgTuple)) (i : Nat) (cmd : String)
    (args : ArgTuple) (e : String) (ht : tasks[i]? = some (cmd, args))
    (hfail : apply cmd args = Except.error e) :
    (worker apply tasks).length = tasks.length ∧
    (worker apply tasks)[i]?
      = some (WEvent.push args.mon.backurl (TaskResult.failure e)) := by
  rw [worker_eq]
  refine ⟨by simp, ?_⟩
  rw [List.getElem?_map, ht]
  simp [safely_call, hfail]

theorem worker_captures_failures_witness :
    (worker (fun c _ => if c = "boom" then Except.error "err" else Except.ok 5)
        [("boom", ⟨[1], ⟨some "tcp://b:9"⟩⟩), ("add", ⟨[2], ⟨some "tcp://b:9"⟩⟩)]).length
      = [("boom", (⟨[1], ⟨some "tcp://b:9"⟩⟩ : ArgTuple)),
         ("add", ⟨[2], ⟨some "tcp://b:9"⟩⟩)].length ∧
    (worker (fun c _ => if c = "boom" then Except.error "err" else Except.ok 5)
        [("boom", ⟨[1], ⟨some "tcp://b:9"⟩⟩), ("add", ⟨[2], ⟨some "tcp://b:9"⟩⟩)])[0]?
      = some (WEvent.push (some "tcp://b:9") (TaskResult.failure "err")) :=
  worker_captures_failures
    (fun c _ => if c = "boom" then Except.error "err" else Except.ok 5)
    [("boom", ⟨[1], ⟨some "tcp://b:9"⟩⟩), ("add", ⟨[2], ⟨some "tcp://b:9"⟩⟩)]
    0 "boom" ⟨[1], ⟨some "tcp://b:9"⟩⟩ "err" rfl rfl

/-- `WorkerMaster`: `host_cores` is the parsed `[(hostname, cores-string)]`
configuration list (from `'host1 cores1,host2 cores2'`); `ctrl_port` is
`int(ctrl_port)`; `remote_python` is the configured remote executable (or
`sys.executable` when none was given). -/
structure WorkerMaster where
  task_in_url : String
  task_out_url : String
  ctrl_port : Nat
  host_cores : List (String × String)
  remote_python : String
  deriving Repr, DecidableEq

/-- A liveness-probe event of `WorkerMaster.status`, in temporal order:
`sock.connect_ex((host, ctrl_port))` returning an error code, then
`sock.close()` — the close sits in a `finally`, and `connect_ex` reports
failure through its return value rather than by raising, so the close runs
after every probe. -/
inductive ProbeEvent where
  | connectEx (host : String) (port : Nat) (err : Int)
  | closeSock (host : String)
  deriving Repr, DecidableEq

/-- The probe loop of `WorkerMaster.status` over the selected `(host, cores)`
pairs: one `(host, 'not-running'|'running')` pair per entry (`err` truthy,
i.e. nonzero, means not running) plus the probe events. `connect_ex host port`
is the error code of the raw connection attempt. -/
def statusLoop (ctrl_port : Nat) (connect_ex : String → Nat → Int) :
    List (String × String) → List (String × String) × List ProbeEvent
  | [] => ([], [])
  | (host, _) :: rest =>
    let err := connect_ex host ctrl_port
    let out := statusLoop ctrl_port connect_ex rest
    ((host, if err ≠ 0 then "not-running" else "running") :: out.1,
     ProbeEvent.connectEx host ctrl_port err :: ProbeEvent.closeSock host
       :: out.2)

/-- The host selection at the top of `WorkerMaster.status`: all configured
pairs when `host is None`, otherwise those whose hostname equals `host`. -/
def selectHosts (m : WorkerMaster) (host : Option String) :
    List (String × String) :=
  match host with
  | none => m.host_cores
  | some h => m.host_cores.filter (fun hc => hc.1 = h)

/-- `WorkerMaster.status(host=None)`: probe the selected hosts in configured
order. -/
def WorkerMaster.status (m : WorkerMaster) (connect_ex : String → Nat → Int)
    (host : Option String) : List (String × String) × List ProbeEvent :=
  statusLoop m.ctrl_port connect_ex (selectHosts m host)

lemma statusLoop_eq (ctrl_port : Nat) (connect_ex : String → Nat → Int)
    (l : List (String × String)) :
    statusLoop ctrl_port connect_ex l
      = (l.map (fun hc =>
           (hc.1, if connect_ex hc.1 ctrl_port ≠ 0 then "not-running"
                  else "running")),
         l.flatMap (fun hc =>
           [ProbeEvent.connectEx hc.1 ctrl_port (connect_ex hc.1 ctrl_port),
            ProbeEvent.closeSock hc.1])) := by
  induction l with
  | nil => rfl
  | cons hc rest ih => cases hc; simp [statusLoop, ih]

/-- Claim C6: `status(host)` returns one `(hostname, 'running'|'not-running')`
pair per configured host matching the filter (all hosts when the argument is
omitted), `'running'` exactly when the raw connection attempt returns error
code 0; the result follows the configured host order, and every probe's
socket close event follows its connect attempt. -/
theorem master_status_pairs (m : WorkerMaster)
    (connect_ex : String → Nat → Int) (host : Option String) :
    selectHosts m none = m.host_cores ∧
    (∀ h, selectHosts m (some h)
      = m.host_cores.filter (fun hc => hc.1 = h)) ∧
    (m.status connect_ex host).1
      = (selectHosts m host).map
          (fun hc => (hc.1,
            if connect_ex hc.1 m.ctrl_port ≠ 0 then "not-running"
            else "running")) ∧
    (m.status connect_ex host).2
      = (selectHosts m host).flatMap
          (fun hc =>
            [ProbeEvent.connectEx hc.1 m.ctrl_port
               (connect_ex hc.1 m.ctrl_port),
             ProbeEvent.closeSock hc.1]) ∧
    (m.status connect_ex host).1.map Prod.fst
      = (selectHosts m host).map Prod.fst := by
  refine ⟨rfl, fun h => rfl, ?_, ?_, ?_⟩ <;>
    simp [WorkerMaster.status, statusLoop_eq]

/-- `'tcp://%s:%s' % (host, ctrl_port)`. -/
def ctrl_url_of (host : String) (port : Nat) : String :=
  "tcp://" ++ host ++ ":" ++ toString port

/-- The observable events of `WorkerMaster.start`/`stop`/`kill`, in temporal
order: a `print(...)`, a `subprocess.Popen(args)` launch, or sending a control
command over a REQ socket (`z.Socket(ctrl_url, REQ, 'connect').send(cmd)`). -/
inductive MEvent where
  | print (s : String)
  | popen (args : List String)
  | sendCmd (url : String) (cmd : String)
  deriving Repr, DecidableEq

/-- `self.status(host)[0][1]` as the loops over `self.host_cores` read it.
The `[0]` indexing cannot fail there: `host` is drawn from `self.host_cores`,
so the filtered list is nonempty; `headD` with a dummy default models that
total access. -/
def statusHead (m : WorkerMaster) (connect_ex : String → Nat → Int)
    (host : String) : String :=
  ((m.status connect_ex (some host)).1.headD ("", "")).2

lemma filter_head_label (port : Nat) (connect_ex : String → Nat → Int)
    (l : List (String × String)) (host d : String) (hd : (host, d) ∈ l) :
    ((l.filter (fun hc => hc.1 = host)).map
        (fun hc => (hc.1,
          if connect_ex hc.1 port ≠ 0 then "not-running"
          else "running"))).headD ("", "")
      = (host,
         if connect_ex host port ≠ 0 then "not-running" else "running") := by
  induction l with
  | nil => simp at hd
  | cons p rest ih =>
    by_cases hp : p.1 = host
    · obtain ⟨ph, pc⟩ := p
      simp only at hp
      subst hp
      simp [List.filter_cons]
    · rcases List.mem_cons.mp hd with heq | hmem
      · exact absurd (congrArg Prod.fst heq.symm) hp
      · simpa [List.filter_cons, hp] using ih hmem

lemma statusHead_eq (m : WorkerMaster) (connect_ex : String → Nat → Int)
    (host c : String) (hmem : (host, c) ∈ m.host_cores) :
    statusHead m connect_ex host
      = (if connect_ex host m.ctrl_port ≠ 0 then "not-running"
         else "running") := by
  have h1 : (m.status connect_ex (some host)).1
      = (m.host_cores.filter (fun hc => hc.1 = host)).map
          (fun hc => (hc.1,
            if connect_ex hc.1 m.ctrl_port ≠ 0 then "not-running"
            else "running")) := by
    simp [WorkerMaster.status, selectHosts, statusLoop_eq]
  unfold statusHead
  rw [h1, filter_head_label m.ctrl_port connect_ex m.host_cores host c hmem]

/-- The loop of `WorkerMaster.start`. The local variable `ctrl_url` is only
assigned on iterations that launch a pool; it is threaded as an `Option`
(`none` = not yet assigned), because the `return` after the loop reads it. -/
def startLoop (m : WorkerMaster) (connect_ex : String → Nat → Int)
    (sys_executable : String) :
    List (String × String) → Option String → List MEvent × Option String
  | [], u => ([], u)
  | (host, cores) :: rest, u =>
    if statusHead m connect_ex host = "running" then
      let out := startLoop m connect_ex sys_executable rest u
      (MEvent.print (host ++ " already running") :: out.1, out.2)
    else
      let curl := ctrl_url_of host m.ctrl_port
      let args := (if host = "127.0.0.1" then [sys_executable]
                   else ["ssh", host, m.remote_python])
        ++ ["-m", "openquake.baselib.workerpool", curl, m.task_out_url, cores]
      let out := startLoop m connect_ex sys_executable rest (some curl)
      (MEvent.print ("starting " ++ String.intercalate " " args)
         :: MEvent.popen args :: out.1, out.2)

/-- `WorkerMaster.start()`: run the loop over `self.host_cores`, then
`return '%s started' % ctrl_url`. When no iteration assigned `ctrl_url`
(every host was skipped as already running, or the configuration is empty),
that read raises `UnboundLocalError`, modelled as `Except.error`. -/
def WorkerMaster.start (m : WorkerMaster) (connect_ex : String → Nat → Int)
    (sys_executable : String) : List MEvent × Except String String :=
  let out := startLoop m connect_ex sys_executable m.host_cores none
  (out.1,
   match out.2 with
   | none => Except.error "UnboundLocalError"
   | some curl => Except.ok (curl ++ " started"))

/-- A one-host configuration whose probe reports the host as running: the
failing input for `WorkerMaster.start`. -/
def allRunningMaster : WorkerMaster :=
  { task_in_url := "tcp://master:1908", task_out_url := "tcp://master:1909",
    ctrl_port := 1907, host_cores := [("127.0.0.1", "2")],
    remote_python := "python3" }

/-- Claim C3, the code as it is: on a configuration whose every host is
already running, `start()` skips each host with only a notice and launches
nothing — but then the `return '%s started' % ctrl_url` after the loop reads
a never-assigned local and raises `UnboundLocalError` instead of returning a
status string, contradicting the spec's per-host idempotence of `start()`
("the second observes `running` and skips") and its promise that
administrative commands always return a definite string. -/
theorem master_start_all_running_raises :
    (allRunningMaster.start (fun _ _ => 0) "python3").1
      = [MEvent.print "127.0.0.1 already running"] ∧
    (allRunningMaster.start (fun _ _ => 0) "python3").2
      = Except.error "UnboundLocalError" := by
  constructor <;> rfl

/-- The loop shared (textually repeated, differing only in the command) by
`WorkerMaster.stop` and `WorkerMaster.kill`: a host whose probe says
`not-running` is skipped with a printed notice; otherwise a REQ socket is
connected to the host's control url, the command is sent, and the pool's
confirmation reply is printed. `replyOf url cmd` is the reply the pool at
`url` returns for `cmd`. -/
def ctrlCmdLoop (m : WorkerMaster) (connect_ex : String → Nat → Int)
    (replyOf : String → String → String) (cmd : String) :
    List (String × String) → List MEvent
  | [] => []
  | (host, _) :: rest =>
    if statusHead m connect_ex host = "not-running" then
      MEvent.print (host ++ " not running")
        :: ctrlCmdLoop m connect_ex replyOf cmd rest
    else
      MEvent.sendCmd (ctrl_url_of host m.ctrl_port) cmd
        :: MEvent.print (replyOf (ctrl_url_of host m.ctrl_port) cmd)
        :: ctrlCmdLoop m connect_ex replyOf cmd rest

/-- `WorkerMaster.stop()`: the loop over `self.host_cores`, then
`return 'stopped'`. -/
def WorkerMaster.stop (m : WorkerMaster) (connect_ex : String → Nat → Int)
    (replyOf : String → String → String) : List MEvent × String :=
  (ctrlCmdLoop m connect_ex replyOf "stop" m.host_cores, "stopped")

/-- `WorkerMaster.kill()`: the loop over `self.host_cores`, then
`return 'killed'`. -/
def WorkerMaster.kill (m : WorkerMaster) (connect_ex : String → Nat → Int)
    (replyOf : String → String → String) : List MEvent × String :=
  (ctrlCmdLoop m connect_ex replyOf "kill" m.host_cores, "killed")

lemma ctrlCmdLoop_eq (m : WorkerMaster) (connect_ex : String → Nat → Int)
    (replyOf : String → String → String) (cmd : String)
    (l : List (String × String)) (hl : ∀ hc ∈ l, hc ∈ m.host_cores) :
    ctrlCmdLoop m connect_ex replyOf cmd l
      = l.flatMap (fun hc =>
          if connect_ex hc.1 m.ctrl_port ≠ 0 then
            [MEvent.print (hc.1 ++ " not running")]
          else
            [MEvent.sendCmd (ctrl_url_of hc.1 m.ctrl_port) cmd,
             MEvent.print (replyOf (ctrl_url_of hc.1 m.ctrl_port) cmd)]) := by
  induction l with
  | nil => rfl
  | cons p rest ih =>
    obtain ⟨host, cores⟩ := p
    have hmem : (host, cores) ∈ m.host_cores :=
      hl _ (List.mem_cons_self _ _)
    have hrest : ∀ hc ∈ rest, hc ∈ m.host_cores :=
      fun hc h => hl hc (List.mem_cons_of_mem _ h)
    have hh := statusHead_eq m connect_ex host cores hmem
    by_cases hrun : connect_ex host m.ctrl_port ≠ 0
    · rw [if_pos hrun] at hh
      simp [ctrlCmdLoop, hh, hrun, ih hrest]
    · rw [if_neg hrun] at hh
      have hns : statusHead m connect_ex host ≠ "not-running" := by
        rw [hh]; decide
      push_neg at hrun
      simp [ctrlCmdLoop, hns, hrun, ih hrest]

/-- Claim C8: `stop()` (and `kill()`) skip every configured host whose probe
reports it not running, printing an informational notice instead of raising;
a control command is sent only to hosts whose probe succeeds (error code 0);
and both calls return their definite status string in every case. -/
theorem master_stop_kill_skip (m : WorkerMaster)
    (connect_ex : String → Nat → Int)
    (replyOf : String → String → String) :
    (m.stop connect_ex replyOf).2 = "stopped" ∧
    (m.kill connect_ex replyOf).2 = "killed" ∧
    (∀ host cores, (host, cores) ∈ m.host_cores →
      connect_ex host m.ctrl_port ≠ 0 →
      MEvent.print (host ++ " not running") ∈ (m.stop connect_ex replyOf).1 ∧
      MEvent.print (host ++ " not running") ∈ (m.kill connect_ex replyOf).1) ∧
    (∀ url c, MEvent.sendCmd url c ∈ (m.stop connect_ex replyOf).1 →
      c = "stop" ∧ ∃ host cores, (host, cores) ∈ m.host_cores ∧
        connect_ex host m.ctrl_port = 0 ∧
        url = ctrl_url_of host m.ctrl_port) ∧
    (∀ url c, MEvent.sendCmd url c ∈ (m.kill connect_ex replyOf).1 →
      c = "kill" ∧ ∃ host cores, (host, cores) ∈ m.host_cores ∧
        connect_ex host m.ctrl_port = 0 ∧
        url = ctrl_url_of host m.ctrl_port) := by
  have hstop : (m.stop connect_ex replyOf).1
      = m.host_cores.flatMap (fun hc =>
          if connect_ex hc.1 m.ctrl_port ≠ 0 then
            [MEvent.print (hc.1 ++ " not running")]
          else
            [MEvent.sendCmd (ctrl_url_of hc.1 m.ctrl_port) "stop",
             MEvent.print (replyOf (ctrl_url_of hc.1 m.ctrl_port) "stop")]) :=
    ctrlCmdLoop_eq m connect_ex replyOf "stop" m.host_cores (fun _ h => h)
  have hkill : (m.kill connect_ex replyOf).1
      = m.host_cores.flatMap (fun hc =>
          if connect_ex hc.1 m.ctrl_port ≠ 0 then
            [MEvent.print (hc.1 ++ " not running")]
          else
            [MEvent.sendCmd (ctrl_url_of hc.1 m.ctrl_port) "kill",
             MEvent.print (replyOf (ctrl_url_of hc.1 m.ctrl_port) "kill")]) :=
    ctrlCmdLoop_eq m connect_ex replyOf "kill" m.host_cores (fun _ h => h)
  refine ⟨rfl, rfl, ?_, ?_, ?_⟩
  · intro host cores hmem hdead
    constructor
    · rw [hstop]
      refine List.mem_flatMap.mpr ⟨(host, cores), hmem, ?_⟩
      simp [hdead]
    · rw [hkill]
      refine List.mem_flatMap.mpr ⟨(host, cores), hmem, ?_⟩
      simp [hdead]
  · intro url c hc
    rw [hstop] at hc
    rcases List.mem_flatMap.mp hc with ⟨⟨host, cores⟩, hmem, hin⟩
    by_cases hrun : connect_ex host m.ctrl_port ≠ 0
    · rw [if_pos hrun] at hin
      simp at hin
    · rw [if_neg hrun] at hin
      push_neg at hrun
      rcases List.mem_cons.mp hin with heq | hin2
      · injection heq with h1 h2
        exact ⟨h2, host, cores, hmem, hrun, h1⟩
      · simp at hin2
  · intro url c hc
    rw [hkill] at hc
    rcases List.mem_flatMap.mp hc with ⟨⟨host, cores⟩, hmem, hin⟩
    by_cases hrun : connect_ex host m.ctrl_port ≠ 0
    · rw [if_pos hrun] at hin
      simp at hin
    · rw [if_neg hrun] at hin
      push_neg at hrun
      rcases List.mem_cons.mp hin with heq | hin2
      · injection heq with h1 h2
        exact ⟨h2, host, cores, hmem, hrun, h1⟩
      · simp at hin2
